import Mathlib

/-!
Verification of the DockLogBC AI document-extraction pipeline
(`src/lib/utils/ai.ts`).

The pipeline is glue code around two hosted vision-model providers:
build a prompt, call the primary adapter, strip markdown fencing from the
reply, parse it as JSON, apply field normalization, and fall back once to
the backup adapter on any thrown error.

The embedding models JavaScript runtime values reached by the pipeline
(`JValue`), JavaScript string and number builtins used by the source
(trim, slice, indexOf, substring, `Number(...)` coercion, truthiness),
and the three public operations `parseTimesheetWithAI`,
`parsePaystubWithClaude`, `parseStatScheduleWithAI` as total Lean
functions over an environment of oracles standing for the external
effects (the two network adapters, `JSON.parse`, and `new Date`
validity).  A thrown JavaScript exception is an `Except.error` carrying
the error message; the public operations catch every such error, exactly
as the source's try/catch structure does.
-/

namespace DockLog

/-! ### String literal constants (field keys, keywords, messages) -/

def kDate : String := "date"
def kHours : String := "hours"
def kShiftType : String := "shift_type"
def kJobName : String := "job_name"
def kEarnings : String := "earnings"
def kError : String := "error"
def kYear : String := "year"
def kHolidays : String := "holidays"
def kName : String := "name"
def kQualStart : String := "qualification_start"
def kQualEnd : String := "qualification_end"
def kTotalHours : String := "total_hours"
def kHoursWorked : String := "hours_worked"
def kLineItems : String := "line_items"
def kGrossPay : String := "gross_pay"
def kNetPay : String := "net_pay"

def kwGrave : String := "grave"
def kwNight : String := "night"
def kwMid : String := "mid"
def kwAfter : String := "after"
def kwEvening : String := "evening"
def kwPm : String := "pm"
def kwSwing : String := "swing"

def strImported : String := "Imported"
def strDay : String := "day"
def strImageJpg : String := "image/jpg"
def strImageJpeg : String := "image/jpeg"
def fenceJson : String := "```json"
def fencePlain : String := "```"

def msgNoGeminiKey : String := "No Gemini API key available"
def msgInvalidDataFormat : String := "Invalid data format"
def msgNoValidHolidays : String := "No valid holidays found"
def msgNoPayData : String := "No pay data found. Claude returned: "
def msgReadOfNull : String := "Cannot read properties of null reading "
def msgReadOfUndefined : String := "Cannot read properties of undefined reading "
def msgNotAFunction : String := "toLowerCase is not a function"
def msgFilterNotAFunction : String := "filter is not a function"
def msgCannotCreateProperty : String := "Cannot create property "

/-! ### JavaScript string builtins, modelled on `List Char` -/

/-- Whitespace recognised by JavaScript `String.prototype.trim`
(restricted to the ASCII whitespace characters that can occur here). -/
def jsIsWs (c : Char) : Bool :=
  c == ' ' || c == '\t' || c == '\n' || c == '\r' || c == '\x0b' || c == '\x0c'

/-- `trim()` on a character list: drop leading and trailing whitespace. -/
def jsTrimList (l : List Char) : List Char :=
  ((l.dropWhile jsIsWs).reverse.dropWhile jsIsWs).reverse

/-- `trim()` on a string. -/
def jsTrim (s : String) : String :=
  String.mk (jsTrimList s.toList)

/-- `startsWith(pat)`: the first `pat.length` characters equal `pat`. -/
def listLeads (pat l : List Char) : Bool :=
  l.take pat.length == pat

/-- `endsWith(pat)`: the last `pat.length` characters equal `pat`. -/
def listTrails (pat l : List Char) : Bool :=
  l.drop (l.length - pat.length) == pat && pat.length ≤ l.length

/-- `indexOf(c)` restricted to single characters: index of the first
occurrence, `none` when absent. -/
def idxOfChar (c : Char) : List Char → Option Nat
  | [] => none
  | x :: xs => if x == c then some 0 else (idxOfChar c xs).map (· + 1)

/-- `lastIndexOf(c)`-style helper: index of the last occurrence. -/
def lastIdxOfChar (c : Char) (l : List Char) : Option Nat :=
  (idxOfChar c l.reverse).map (fun k => l.length - 1 - k)

/-- JavaScript `indexOf` as used in `parseDataURL`: `-1` when absent. -/
def jsIndexOf (s : String) (c : Char) : Int :=
  match idxOfChar c s.toList with
  | some i => (i : Int)
  | none => -1

/-- JavaScript `substring(a, b)`: clamp both arguments into `[0, length]`
and swap them when out of order. -/
def jsSubstring (s : String) (a b : Int) : String :=
  let n : Int := (s.toList.length : Int)
  let a' := min (max a 0) n
  let b' := min (max b 0) n
  let lo := min a' b'
  let hi := max a' b'
  String.mk ((s.toList.take hi.toNat).drop lo.toNat)

/-- JavaScript `substring(a)` (one-argument form): from `a` to the end. -/
def jsSubstringFrom (s : String) (a : Int) : String :=
  jsSubstring s a (s.toList.length : Int)

/-- Case folding used by `toLowerCase()` (ASCII letters). -/
def jsToLower (s : String) : String :=
  String.mk (s.toList.map Char.toLower)

/-- `includes(pat)`: substring containment. -/
def strContains (s pat : String) : Bool :=
  decide (pat.toList <:+: s.toList)

/-! ### JavaScript number coercion (`Number(...)`), modelled over ℚ.

JavaScript numbers are floats; the embedding uses exact rationals, which
agree with the source on every value the pipeline distinguishes
(zero/nonzero, positive/negative, the default 8).  `none` stands for
`NaN` (and for the non-finite results the rationals cannot carry). -/

def digitVal (c : Char) : Option Nat :=
  if '0' ≤ c && c ≤ '9' then some (c.toNat - 48) else none

def hexVal (c : Char) : Option Nat :=
  if '0' ≤ c && c ≤ '9' then some (c.toNat - 48)
  else if 'a' ≤ c && c ≤ 'f' then some (c.toNat - 87)
  else if 'A' ≤ c && c ≤ 'F' then some (c.toNat - 55)
  else none

def octVal (c : Char) : Option Nat :=
  if '0' ≤ c && c ≤ '7' then some (c.toNat - 48) else none

def binVal (c : Char) : Option Nat :=
  if c == '0' then some 0 else if c == '1' then some 1 else none

/-- Read a digit run: returns the accumulated value, the number of
digits consumed, and the rest of the input. -/
def readDigits (dv : Char → Option Nat) (base : Nat) :
    List Char → Nat → Nat → Nat × Nat × List Char
  | [], acc, cnt => (acc, cnt, [])
  | c :: cs, acc, cnt =>
    match dv c with
    | some d => readDigits dv base cs (acc * base + d) (cnt + 1)
    | none => (acc, cnt, c :: cs)

/-- Assemble `sign * (intPart . fracPart) * 10^exp` as a rational. -/
def ratOfParts (sgn : Int) (ip fp fc : Nat) (ex : Int) : ℚ :=
  let mant : Int := sgn * ((ip : Int) * 10 ^ fc + (fp : Int))
  if 0 ≤ ex then mkRat (mant * 10 ^ ex.toNat) (10 ^ fc)
  else mkRat mant (10 ^ fc * 10 ^ (-ex).toNat)

/-- Exponent tail of a decimal literal (after `e`/`E`). -/
def parseExpTail (sgn : Int) (ip fp fc : Nat) (r : List Char) : Option ℚ :=
  let sr : Int × List Char :=
    match r with
    | '-' :: r2 => (-1, r2)
    | '+' :: r2 => (1, r2)
    | r2 => (1, r2)
  let (ev, ec, r2) := readDigits digitVal 10 sr.2 0 0
  if ec == 0 then none
  else
    match r2 with
    | [] => some (ratOfParts sgn ip fp fc (sr.1 * (ev : Int)))
    | _ => none

/-- Decimal numeric literal: optional sign, digits, optional fraction,
optional exponent; the whole input must be consumed. -/
def parseDecimal (cs0 : List Char) : Option ℚ :=
  let sc : Int × List Char :=
    match cs0 with
    | '-' :: r => (-1, r)
    | '+' :: r => (1, r)
    | r => (1, r)
  let (ip, ic, cs2) := readDigits digitVal 10 sc.2 0 0
  let fr : Nat × Nat × List Char :=
    match cs2 with
    | '.' :: r => readDigits digitVal 10 r 0 0
    | r => (0, 0, r)
  let (fp, fc, cs3) := fr
  if ic + fc == 0 then none
  else
    match cs3 with
    | [] => some (ratOfParts sc.1 ip fp fc 0)
    | 'e' :: r => parseExpTail sc.1 ip fp fc r
    | 'E' :: r => parseExpTail sc.1 ip fp fc r
    | _ => none

/-- Radix-prefixed literal (`0x...`, `0o...`, `0b...`). -/
def parseRadix (dv : Char → Option Nat) (base : Nat) (r : List Char) : Option ℚ :=
  let (v, c, rest) := readDigits dv base r 0 0
  if c == 0 then none
  else
    match rest with
    | [] => some (mkRat (v : Int) 1)
    | _ => none

/-- `Number(string)`: trim, empty means 0, then a numeric literal;
anything else is `NaN` (`none`). -/
def strToNumber (s : String) : Option ℚ :=
  match jsTrimList s.toList with
  | [] => some 0
  | '0' :: 'x' :: r => parseRadix hexVal 16 r
  | '0' :: 'X' :: r => parseRadix hexVal 16 r
  | '0' :: 'o' :: r => parseRadix octVal 8 r
  | '0' :: 'O' :: r => parseRadix octVal 8 r
  | '0' :: 'b' :: r => parseRadix binVal 2 r
  | '0' :: 'B' :: r => parseRadix binVal 2 r
  | l => parseDecimal l

/-! ### JSON / JavaScript runtime values -/

/-- A JavaScript runtime value as reached by this pipeline: the JSON
values produced by `JSON.parse`, plus `undefined` for absent
properties. -/
inductive JValue where
  | null
  | undefined
  | bool (b : Bool)
  | num (q : ℚ)
  | str (s : String)
  | arr (elems : List JValue)
  | obj (fields : List (String × JValue))

/-- JavaScript truthiness. -/
def JValue.truthy : JValue → Bool
  | .null => false
  | .undefined => false
  | .bool b => b
  | .num q => decide (q ≠ 0)
  | .str s => decide (s ≠ "")
  | .arr _ => true
  | .obj _ => true

/-- First binding of a key in an object's field list (`JSON.parse`
output carries unique keys); `undefined` when absent. -/
def lookupField : List (String × JValue) → String → JValue
  | [], _ => .undefined
  | (k, v) :: rest, key => if k = key then v else lookupField rest key

/-- Property read `v[k]`: throws a `TypeError` on `null`/`undefined`,
yields `undefined` on primitives and on objects lacking the key. -/
def JValue.getField : JValue → String → Except String JValue
  | .null, k => .error (msgReadOfNull ++ k)
  | .undefined, k => .error (msgReadOfUndefined ++ k)
  | .obj fs, k => .ok (lookupField fs k)
  | _, _ => .ok .undefined

/-- Total property read, valid away from `null`/`undefined` receivers. -/
def getF (e : JValue) (k : String) : JValue :=
  match e with
  | .obj fs => lookupField fs k
  | _ => .undefined

/-- Property write on an object's field list: overwrite in place when
the key exists, else append. -/
def setField (fs : List (String × JValue)) (k : String) (v : JValue) :
    List (String × JValue) :=
  if fs.any (fun p => decide (p.1 = k)) then
    fs.map (fun p => if p.1 = k then (k, v) else p)
  else fs ++ [(k, v)]

/-- Property write `d[k] = v` (strict mode): throws on primitives,
succeeds on objects.  A write to an array object succeeds in
JavaScript; the array representation does not carry expando
properties, and no theorem below reads one back. -/
def jsSetField (d : JValue) (k : String) (v : JValue) : Except String JValue :=
  match d with
  | .obj fs => .ok (.obj (setField fs k v))
  | .arr xs => .ok (.arr xs)
  | .null => .error (msgReadOfNull ++ k)
  | .undefined => .error (msgReadOfUndefined ++ k)
  | _ => .error (msgCannotCreateProperty ++ k)

/-- `Number(v)` on a runtime value.  A one-element array coerces through
its member's string form; longer arrays join with a comma and are
`NaN`; objects are `NaN`. -/
def jsNumber : JValue → Option ℚ
  | .null => some 0
  | .undefined => none
  | .bool b => some (if b then 1 else 0)
  | .num q => some q
  | .str s => strToNumber s
  | .obj _ => none
  | .arr [] => some 0
  | .arr [.null] => some 0
  | .arr [.undefined] => some 0
  | .arr [.num q] => some q
  | .arr [.str s] => strToNumber s
  | .arr _ => none

/-! ### Media decoder (`parseDataURL`) -/

/-- Result of decoding a data-URL. -/
structure ParsedDataURL where
  mediaType : String
  data : String
deriving DecidableEq

/-- `parseDataURL` from the source: reject when the first comma or the
first semicolon is absent or at position 0; media type is
`substring(5, semicolonIndex)`; payload is everything after the first
comma; `image/jpg` is rewritten to `image/jpeg`. -/
def parseDataURL (dataURL : String) : Option ParsedDataURL :=
  let commaIndex := jsIndexOf dataURL ','
  let semicolonIndex := jsIndexOf dataURL ';'
  if commaIndex ≤ 0 || semicolonIndex ≤ 0 then none
  else
    let mediaType := jsSubstring dataURL 5 semicolonIndex
    let data := jsSubstringFrom dataURL (commaIndex + 1)
    let mediaType := if mediaType = strImageJpg then strImageJpeg else mediaType
    some ⟨mediaType, data⟩

/-! ### Response normalizer -/

/-- `extractJSON` from the source: trim, strip a leading
` ```json ` or ` ``` ` fence, strip a trailing ` ``` ` fence, trim. -/
def extractJSON (response : String) : String :=
  let l0 := jsTrimList response.toList
  let l1 :=
    if listLeads fenceJson.toList l0 then l0.drop 7
    else if listLeads fencePlain.toList l0 then l0.drop 3
    else l0
  let l2 := if listTrails fencePlain.toList l1 then l1.take (l1.length - 3) else l1
  String.mk (jsTrimList l2)

/-- The opening brace character. -/
def lbrace : Char := Char.ofNat 123

/-- The closing brace character. -/
def rbrace : Char := Char.ofNat 125

/-- The regex match `jsonStr.match(/\x7b[\s\S]*\x7d/)`: the span from
the first opening brace to the last closing brace, when the latter
comes after the former. -/
def braceExtract (s : String) : Option String :=
  let l := s.toList
  match idxOfChar lbrace l, lastIdxOfChar rbrace l with
  | some i, some j => if i < j then some (String.mk ((l.take (j + 1)).drop i)) else none
  | _, _ => none

/-- The JSON candidate string handed to `JSON.parse` by the paystub and
stat-schedule operations: fence-stripped, then narrowed to the brace
span when one exists. -/
def braceCandidate (response : String) : String :=
  let jsonStr := extractJSON response
  match braceExtract jsonStr with
  | some m => m
  | none => jsonStr

/-! ### Field normalization helpers -/

/-- Shift classification on strings (the body of `normalizeShiftType`
after the `(shift || '')` guard): lower-case, then keyword priority
graveyard before afternoon before the day default. -/
inductive ShiftType where
  | day
  | afternoon
  | graveyard
deriving DecidableEq

def normalizeShiftType (shift : String) : ShiftType :=
  let s := jsToLower shift
  if strContains s kwGrave || strContains s kwNight || strContains s kwMid then .graveyard
  else if strContains s kwAfter || strContains s kwEvening || strContains s kwPm || strContains s kwSwing then .afternoon
  else .day

/-- `normalizeShiftType` on a runtime value: a falsy input is replaced
by the empty string; `toLowerCase()` on a truthy non-string throws. -/
def normalizeShiftTypeJ (shift : JValue) : Except String ShiftType :=
  let s := if shift.truthy then shift else .str ""
  match s with
  | .str t => .ok (normalizeShiftType t)
  | _ => .error msgNotAFunction

/-- `normalizeDate` from the source, with `new Date` parsing supplied
as an oracle: a successfully parsed date is replaced by its ISO day
string, anything else passes through unchanged. -/
def normalizeDate (dateParse : JValue → Option String) (v : JValue) : JValue :=
  match dateParse v with
  | some iso => .str iso
  | none => v

/-- `Number(e.hours) || 8`: the falsy coercion results (0 and `NaN`)
default to 8. -/
def hoursCoerce (v : JValue) : ℚ :=
  match jsNumber v with
  | none => 8
  | some q => if q = 0 then 8 else q

/-! ### Timesheet entry processing -/

/-- A timesheet entry after the source's `.map` normalization: the
spread `...e` keeps the source object's fields, and the five assigned
keys override them.  `earnings` is `none` for `undefined`, and carries
`Option ℚ` with `none` for `NaN`. -/
structure NormEntry where
  rest : List (String × JValue)
  date : JValue
  shift_type : ShiftType
  hours : ℚ
  job_name : JValue
  earnings : Option (Option ℚ)

/-- The filter predicate `e => e.date && e.hours`, with property reads
that throw on `null`/`undefined` receivers. -/
def entryValid (e : JValue) : Except String Bool :=
  match e.getField kDate with
  | .error m => .error m
  | .ok d =>
    if d.truthy then
      match e.getField kHours with
      | .error m => .error m
      | .ok h => .ok h.truthy
    else .ok false

/-- The same predicate on receivers that cannot throw. -/
def entryValidPure (e : JValue) : Bool :=
  (getF e kDate).truthy && (getF e kHours).truthy

/-- The `.map` body of the timesheet operations; `normalizeShiftType`
can throw on a truthy non-string `shift_type`. -/
def normalizeEntry (dateParse : JValue → Option String) (e : JValue) :
    Except String NormEntry :=
  match normalizeShiftTypeJ (getF e kShiftType) with
  | .error m => .error m
  | .ok st =>
    .ok
      { rest := (match e with | .obj fs => fs | _ => [])
        date := normalizeDate dateParse (getF e kDate)
        shift_type := st
        hours := hoursCoerce (getF e kHours)
        job_name := (if (getF e kJobName).truthy then getF e kJobName else .str strImported)
        earnings :=
          (if (getF e kEarnings).truthy then some (jsNumber (getF e kEarnings)) else none) }

/-- `Array.prototype.filter`: the predicate runs left to right and a
thrown error aborts the traversal. -/
def filterE (p : JValue → Except String Bool) : List JValue → Except String (List JValue)
  | [] => .ok []
  | x :: xs =>
    match p x with
    | .error m => .error m
    | .ok b =>
      match filterE p xs with
      | .error m => .error m
      | .ok rest => .ok (if b then x :: rest else rest)

/-- `Array.prototype.map` with a possibly-throwing body. -/
def mapE (f : JValue → Except String NormEntry) : List JValue → Except String (List NormEntry)
  | [] => .ok []
  | x :: xs =>
    match f x with
    | .error m => .error m
    | .ok y =>
      match mapE f xs with
      | .error m => .error m
      | .ok ys => .ok (y :: ys)

/-- `entries.filter(...).map(...)` from the timesheet operations. -/
def processEntries (dateParse : JValue → Option String) (xs : List JValue) :
    Except String (List NormEntry) :=
  match filterE entryValid xs with
  | .error m => .error m
  | .ok valid => mapE (normalizeEntry dateParse) valid

/-! ### Environments and public operations

The environment carries the outcomes of the external effects: the two
adapter calls (`callClaude`, `callGemini`), `JSON.parse`, the resolved
backup key (`getGeminiApiKey()`, the empty string when none is
configured), and `new Date` validity.  An `Except.error` is a thrown
exception carrying the error message. -/

structure AIEnv where
  claude : Except String String
  gemini : Except String String
  geminiKey : String
  jsonParse : String → Except String JValue
  dateParse : JValue → Option String

/-- The tagged result union returned by the timesheet and paystub
operations. -/
structure AIResponse where
  success : Bool
  data : Option (List NormEntry)
  error : Option String

/-- One attempt of the timesheet path (primary or backup): adapter
text, fence stripping, `JSON.parse`, then filter and map; a non-array
parse result makes `.filter` throw. -/
def timesheetAttempt (env : AIEnv) (adapter : Except String String) :
    Except String (List NormEntry) :=
  match adapter with
  | .error m => .error m
  | .ok response =>
    match env.jsonParse (extractJSON response) with
    | .error m => .error m
    | .ok (.arr xs) => processEntries env.dateParse xs
    | .ok _ => .error msgFilterNotAFunction

/-- `parseTimesheetWithAI`: primary attempt; on a thrown error, resolve
the backup key (an empty key throws, which the inner catch turns into a
failure carrying the primary message), else one backup attempt whose
thrown error is also replaced by the primary message.  The second
component counts backup adapter calls. -/
def parseTimesheetWithAI (env : AIEnv) : AIResponse × Nat :=
  match timesheetAttempt env env.claude with
  | .ok entries => (⟨true, some entries, none⟩, 0)
  | .error e =>
    if env.geminiKey = "" then (⟨false, none, some e⟩, 0)
    else
      match timesheetAttempt env env.gemini with
      | .ok entries => (⟨true, some entries, none⟩, 1)
      | .error _ => (⟨false, none, some e⟩, 1)

/-! ### Paystub operation -/

/-- Paystub result: `data` is the normalized parsed object on
success. -/
structure PaystubResponse where
  success : Bool
  data : Option JValue
  error : Option String

/-- First normalization statement of the paystub body:
`if (data.total_hours && !data.hours_worked) data.hours_worked = data.total_hours`. -/
def paystubLegacyHours (data0 : JValue) : Except String JValue :=
  match data0.getField kTotalHours with
  | .error m => .error m
  | .ok th =>
    if th.truthy then
      match data0.getField kHoursWorked with
      | .error m => .error m
      | .ok hw =>
        if hw.truthy then .ok data0 else jsSetField data0 kHoursWorked th
    else .ok data0

/-- Second normalization statement of the paystub body:
`if (!Array.isArray(data.line_items)) data.line_items = []`. -/
def paystubCoerceLineItems (data1 : JValue) : Except String JValue :=
  match data1.getField kLineItems with
  | .error m => .error m
  | .ok li =>
    match li with
    | .arr _ => .ok data1
    | _ => jsSetField data1 kLineItems (.arr [])

/-- Final statement of the paystub body: succeed exactly on a truthy
`gross_pay` or `net_pay` or a non-empty `line_items`; otherwise fail
with the truncated raw response embedded. -/
def paystubFinish (response : String) (data2 : JValue) :
    Except String PaystubResponse :=
  match data2.getField kGrossPay, data2.getField kNetPay,
      data2.getField kLineItems with
  | .error m, _, _ => .error m
  | _, .error m, _ => .error m
  | _, _, .error m => .error m
  | .ok gp, .ok np, .ok li2 =>
    let liLen := match li2 with | .arr xs => xs.length | _ => 0
    if gp.truthy || np.truthy || decide (0 < liLen) then
      .ok ⟨true, some data2, none⟩
    else
      .ok ⟨false, none, some (msgNoPayData ++ jsSubstring response 0 200)⟩

/-- The post-parse body of `parsePaystubWithClaude`, in source order:
derive the legacy `hours_worked` from `total_hours`, coerce a
non-array `line_items` to an empty array, then apply the success
criterion. -/
def paystubProcess (response : String) (data0 : JValue) :
    Except String PaystubResponse :=
  match paystubLegacyHours data0 with
  | .error m => .error m
  | .ok data1 =>
    match paystubCoerceLineItems data1 with
    | .error m => .error m
    | .ok data2 => paystubFinish response data2

/-- `parsePaystubWithClaude`: primary adapter only; every thrown error
is caught at the boundary and converted to a failure carrying its
message. -/
def parsePaystubWithClaude (env : AIEnv) : PaystubResponse :=
  match
    ((match env.claude with
    | .error m => .error m
    | .ok response =>
      match env.jsonParse (braceCandidate response) with
      | .error m => .error m
      | .ok data => paystubProcess response data) :
      Except String PaystubResponse) with
  | .ok r => r
  | .error e => ⟨false, none, some e⟩

/-! ### Stat-schedule operation -/

/-- Stat-schedule result union: the failure `error` is a runtime value
because the sentinel branch surfaces `data.error` as-is. -/
structure StatScheduleResponse where
  success : Bool
  year : Option JValue
  holidays : Option (List JValue)
  error : Option JValue

/-- The holiday filter predicate: all four required fields truthy, with
short-circuit property reads that throw on `null`/`undefined`. -/
def statHolidayValid (h : JValue) : Except String Bool :=
  match h.getField kName with
  | .error m => .error m
  | .ok n =>
    if !n.truthy then .ok false
    else
      match h.getField kDate with
      | .error m => .error m
      | .ok d =>
        if !d.truthy then .ok false
        else
          match h.getField kQualStart with
          | .error m => .error m
          | .ok qs =>
            if !qs.truthy then .ok false
            else
              match h.getField kQualEnd with
              | .error m => .error m
              | .ok qe => .ok qe.truthy

/-- The same predicate on receivers that cannot throw. -/
def statHolidayValidPure (h : JValue) : Bool :=
  (getF h kName).truthy && (getF h kDate).truthy &&
    (getF h kQualStart).truthy && (getF h kQualEnd).truthy

/-- The post-parse body of `parseStatScheduleWithAI`: sentinel error
first, then the shape check, then the holiday filter and the
empty-filter failure. -/
def statProcess (data : JValue) : Except String StatScheduleResponse :=
  match data.getField kError with
  | .error m => .error m
  | .ok err =>
    if err.truthy then .ok ⟨false, none, none, some err⟩
    else
      match data.getField kYear, data.getField kHolidays with
      | .error m, _ => .error m
      | _, .error m => .error m
      | .ok y, .ok hs =>
        let isArrHs := match hs with | .arr _ => true | _ => false
        if !y.truthy || !hs.truthy || !isArrHs then
          .ok ⟨false, none, none, some (.str msgInvalidDataFormat)⟩
        else
          let hlist := match hs with | .arr l => l | _ => []
          match filterE statHolidayValid hlist with
          | .error m => .error m
          | .ok valid =>
            if valid.length = 0 then
              .ok ⟨false, none, none, some (.str msgNoValidHolidays)⟩
            else .ok ⟨true, some y, some valid, none⟩

/-- One attempt of the stat-schedule path (primary or backup). -/
def statAttempt (env : AIEnv) (adapter : Except String String) :
    Except String StatScheduleResponse :=
  match adapter with
  | .error m => .error m
  | .ok response =>
    match env.jsonParse (braceCandidate response) with
    | .error m => .error m
    | .ok data => statProcess data

/-- `parseStatScheduleWithAI`: same one-shot backup pattern as the
timesheet operation; validation failures inside an attempt are returns,
not throws, so they do not trigger the backup. -/
def parseStatScheduleWithAI (env : AIEnv) : StatScheduleResponse × Nat :=
  match statAttempt env env.claude with
  | .ok r => (r, 0)
  | .error e =>
    if env.geminiKey = "" then (⟨false, none, none, some (.str e)⟩, 0)
    else
      match statAttempt env env.gemini with
      | .ok r => (r, 1)
      | .error _ => (⟨false, none, none, some (.str e)⟩, 1)

/-! ### Helper lemmas on the string primitives -/

theorem idxOfChar_eq_none_of_not_mem {c : Char} :
    ∀ {l : List Char}, c ∉ l → idxOfChar c l = none := by
  intro l
  induction l with
  | nil => intro _; rfl
  | cons x xs ih =>
    intro h
    have hx : ¬(x == c) = true := by
      simp only [List.mem_cons, not_or] at h
      simp [beq_iff_eq]
      exact fun hxc => h.1 hxc.symm
    have hxs : c ∉ xs := by
      simp only [List.mem_cons, not_or] at h
      exact h.2
    simp [idxOfChar, hx, ih hxs]

theorem idxOfChar_append_of_none {c : Char} {l1 : List Char}
    (h : idxOfChar c l1 = none) (l2 : List Char) :
    idxOfChar c (l1 ++ l2) = (idxOfChar c l2).map (· + l1.length) := by
  induction l1 with
  | nil => simp [idxOfChar]
  | cons x xs ih =>
    cases hxc : (x == c) with
    | true => simp [idxOfChar, hxc] at h
    | false =>
      have h2 : idxOfChar c xs = none := by
        cases hk : idxOfChar c xs with
        | none => rfl
        | some k => simp [idxOfChar, hxc, hk] at h
      rw [List.cons_append]
      simp only [idxOfChar, hxc, Bool.false_eq_true, if_false, ih h2,
        Option.map_map, List.length_cons]
      cases idxOfChar c l2 with
      | none => rfl
      | some k => rfl

theorem idxOfChar_append_of_some {c : Char} {l1 : List Char} {i : Nat}
    (h : idxOfChar c l1 = some i) (l2 : List Char) :
    idxOfChar c (l1 ++ l2) = some i := by
  induction l1 generalizing i with
  | nil => simp [idxOfChar] at h
  | cons x xs ih =>
    cases hxc : (x == c) with
    | true =>
      simp only [idxOfChar, hxc, if_true] at h
      simp [idxOfChar, hxc, ← h]
    | false =>
      simp only [idxOfChar, hxc, Bool.false_eq_true, if_false] at h
      cases hk : idxOfChar c xs with
      | none => simp [hk] at h
      | some k =>
        simp only [hk, Option.map_some, Option.some_inj] at h
        rw [List.cons_append]
        simp [idxOfChar, hxc, ih hk, ← h]

theorem string_mk_toList (s : String) : String.mk s.toList = s := rfl

/-- C7.  For every string lacking a comma or lacking a semicolon, the
media decoder `parseDataURL` returns `none`; being a total Lean
function over every input string, it never throws. -/
theorem parseDataURL_malformed (s : String)
    (h : ',' ∉ s.toList ∨ ';' ∉ s.toList) :
    parseDataURL s = none := by
  rcases h with h | h
  · have hn : idxOfChar ',' s.data = none := idxOfChar_eq_none_of_not_mem h
    have hj : jsIndexOf s ',' = -1 := by
      simp [jsIndexOf, String.toList, hn]
    simp [parseDataURL, hj]
  · have hn : idxOfChar ';' s.data = none := idxOfChar_eq_none_of_not_mem h
    have hj : jsIndexOf s ';' = -1 := by
      simp [jsIndexOf, String.toList, hn]
    simp [parseDataURL, hj]

/-- Witness for C7 at the concrete input `"hello"`. -/
theorem parseDataURL_malformed_witness : parseDataURL "hello" = none :=
  parseDataURL_malformed "hello" (by decide)

/-- C8.  Shift classification is case-insensitive (it depends only on
the lower-cased input), graveyard keywords take priority over afternoon
keywords (an input containing both "night" and "pm" classifies as
graveyard), an input matching no keyword classifies as day, and a
missing or empty input classifies as day. -/
theorem normalizeShiftType_spec (s t : String) :
    (jsToLower s = jsToLower t → normalizeShiftType s = normalizeShiftType t)
    ∧ (strContains (jsToLower s) kwNight = true →
        strContains (jsToLower s) kwPm = true →
        normalizeShiftType s = .graveyard)
    ∧ ((strContains (jsToLower s) kwGrave || strContains (jsToLower s) kwNight ||
        strContains (jsToLower s) kwMid || strContains (jsToLower s) kwAfter ||
        strContains (jsToLower s) kwEvening || strContains (jsToLower s) kwPm ||
        strContains (jsToLower s) kwSwing) = false →
        normalizeShiftType s = .day)
    ∧ normalizeShiftTypeJ .undefined = .ok .day
    ∧ normalizeShiftTypeJ (.str "") = .ok .day := by
  refine ⟨?_, ?_, ?_, rfl, rfl⟩
  · intro h
    simp only [normalizeShiftType, h]
  · intro hn _
    simp [normalizeShiftType, hn]
  · intro h
    simp only [Bool.or_eq_false_iff] at h
    simp [normalizeShiftType, h.1.1.1.1.1.1, h.1.1.1.1.1.2, h.1.1.1.1.2,
      h.1.1.1.2, h.1.1.2, h.1.2, h.2]

theorem jsSubstring_spec (s : String) (a b : Nat) (hab : a ≤ b)
    (hb : b ≤ s.toList.length) :
    jsSubstring s (a : Int) (b : Int) = String.mk ((s.toList.take b).drop a) := by
  have hbn : (b : Int) ≤ (s.toList.length : Int) := by exact_mod_cast hb
  have h1 : min (max (a : Int) 0) (s.toList.length : Int) = (a : Int) := by omega
  have h2 : min (max (b : Int) 0) (s.toList.length : Int) = (b : Int) := by omega
  have hlo : min ((a : Int)) ((b : Int)) = (a : Int) := by omega
  have hhi : max ((a : Int)) ((b : Int)) = (b : Int) := by omega
  simp only [jsSubstring, h1, h2, hlo, hhi, Int.toNat_ofNat, Int.toNat_natCast]

theorem jsSubstringFrom_spec (s : String) (a : Nat) (ha : a ≤ s.toList.length) :
    jsSubstringFrom s (a : Int) = String.mk (s.toList.drop a) := by
  have := jsSubstring_spec s a s.toList.length ha le_rfl
  simp only [jsSubstringFrom, this, List.take_length]

/-- C9.  Decoding `data:<mt>;base64,<X>` for any media type `mt` free of
semicolons and commas yields payload exactly `X`, with `image/jpg`
rewritten to `image/jpeg` and every other media type passed through
unchanged: the alias rewrite is the only correction performed. -/
theorem parseDataURL_passthrough (mt X : String)
    (hsemi : ';' ∉ mt.toList) (hcomma : ',' ∉ mt.toList) :
    parseDataURL ("data:" ++ mt ++ (";base64," ++ X)) =
      some ⟨if mt = strImageJpg then strImageJpeg else mt, X⟩ := by
  have hdata : ("data:" ++ mt ++ (";base64," ++ X)).toList =
      ("data:".toList ++ mt.toList) ++ (";base64,".toList ++ X.toList) := by
    simp [String.toList, String.data_append]
  have hmtc : idxOfChar ',' mt.toList = none := idxOfChar_eq_none_of_not_mem hcomma
  have hmts : idxOfChar ';' mt.toList = none := idxOfChar_eq_none_of_not_mem hsemi
  have hcm : idxOfChar ',' ("data:".toList ++ mt.toList) = none := by
    rw [idxOfChar_append_of_none (by decide), hmtc]
    rfl
  have hsm : idxOfChar ';' ("data:".toList ++ mt.toList) = none := by
    rw [idxOfChar_append_of_none (by decide), hmts]
    rfl
  have hb8c : idxOfChar ',' (String.toList ";base64,") = some 7 := by decide
  have hb8s : idxOfChar ';' (String.toList ";base64,") = some 0 := by decide
  have hcall : idxOfChar ',' ("data:" ++ mt ++ (";base64," ++ X)).toList =
      some (7 + (5 + mt.toList.length)) := by
    rw [hdata, idxOfChar_append_of_none hcm, idxOfChar_append_of_some hb8c X.toList]
    simp only [Option.map_some', Option.some_inj, List.length_append]
    have hm : ("data:".toList).length = 5 := by decide
    omega
  have hsall : idxOfChar ';' ("data:" ++ mt ++ (";base64," ++ X)).toList =
      some (0 + (5 + mt.toList.length)) := by
    rw [hdata, idxOfChar_append_of_none hsm, idxOfChar_append_of_some hb8s X.toList]
    simp only [Option.map_some', Option.some_inj, List.length_append]
    have hm : ("data:".toList).length = 5 := by decide
    omega
  have hlen : ("data:" ++ mt ++ (";base64," ++ X)).toList.length =
      (5 + mt.toList.length) + (8 + X.toList.length) := by
    rw [hdata]
    simp only [List.length_append]
    have hm : ("data:".toList).length = 5 := by decide
    have hm2 : ((String.toList ";base64,")).length = 8 := by decide
    omega
  have hjc : jsIndexOf ("data:" ++ mt ++ (";base64," ++ X)) ',' =
      ((7 + (5 + mt.toList.length) : Nat) : Int) := by
    unfold jsIndexOf
    rw [hcall]
  have hjs : jsIndexOf ("data:" ++ mt ++ (";base64," ++ X)) ';' =
      ((0 + (5 + mt.toList.length) : Nat) : Int) := by
    unfold jsIndexOf
    rw [hsall]
  have hcond : ¬(jsIndexOf ("data:" ++ mt ++ (";base64," ++ X)) ',' ≤ 0 ||
      jsIndexOf ("data:" ++ mt ++ (";base64," ++ X)) ';' ≤ 0) = true := by
    rw [hjc, hjs]
    simp only [Bool.or_eq_true, decide_eq_true_eq, not_or]
    constructor
    · intro hle
      omega
    · intro hle
      omega
  have hmedia : jsSubstring ("data:" ++ mt ++ (";base64," ++ X)) 5
      ((0 + (5 + mt.toList.length) : Nat) : Int) = mt := by
    have h5 : ((5 : Int)) = ((5 : Nat) : Int) := by norm_num
    rw [h5, jsSubstring_spec _ 5 (0 + (5 + mt.toList.length)) (by omega) (by omega)]
    rw [hdata]
    have hd5 : ("data:".toList).length = 5 := by decide
    have htk : (0 + (5 + mt.toList.length)) = ("data:".toList ++ mt.toList).length := by
      simp only [List.length_append]
      omega
    rw [htk, List.take_left, show (5 : Nat) = ("data:".toList).length from hd5.symm,
      List.drop_left]
    exact string_mk_toList mt
  have hdata2 : jsSubstringFrom ("data:" ++ mt ++ (";base64," ++ X))
      (((7 + (5 + mt.toList.length) : Nat) : Int) + 1) = X := by
    have hc13 : (((7 + (5 + mt.toList.length) : Nat) : Int) + 1) =
        ((13 + mt.toList.length : Nat) : Int) := by
      push_cast
      omega
    rw [hc13, jsSubstringFrom_spec _ (13 + mt.toList.length) (by omega)]
    have hassoc : ("data:".toList ++ mt.toList) ++ (";base64,".toList ++ X.toList) =
        (("data:".toList ++ mt.toList) ++ ";base64,".toList) ++ X.toList := by
      simp
    have hplen : (("data:".toList ++ mt.toList) ++ ";base64,".toList).length =
        13 + mt.toList.length := by
      simp only [List.length_append]
      have hm : ("data:".toList).length = 5 := by decide
      have hm2 : ((String.toList ";base64,")).length = 8 := by decide
      omega
    rw [hdata, hassoc, show (13 + mt.toList.length) =
      (("data:".toList ++ mt.toList) ++ ";base64,".toList).length from hplen.symm,
      List.drop_left]
    exact string_mk_toList X
  simp only [parseDataURL, hjc, hjs] at hcond ⊢
  rw [if_neg]
  · rw [hmedia, hdata2]
  · exact fun hcontra => hcond (by simp_all)

/-- Witness for C9 at the concrete inputs `mt := "image/jpg"` and
`mt := "image/png"` with payload `"AAA"`. -/
theorem parseDataURL_passthrough_witness :
    parseDataURL ("data:" ++ "image/jpg" ++ (";base64," ++ "AAA")) =
      some ⟨strImageJpeg, "AAA"⟩
    ∧ parseDataURL ("data:" ++ "image/png" ++ (";base64," ++ "AAA")) =
      some ⟨"image/png", "AAA"⟩ := by
  constructor
  · rw [parseDataURL_passthrough "image/jpg" "AAA" (by decide) (by decide)]
    rfl
  · rw [parseDataURL_passthrough "image/png" "AAA" (by decide) (by decide)]
    rfl

/-- Witness for C8 at concrete inputs: `"NIGHT pm"` against
`"night PM"`, and the keyword-free input `"regular"`. -/
theorem normalizeShiftType_spec_witness :
    normalizeShiftType "NIGHT pm" = normalizeShiftType "night PM"
    ∧ normalizeShiftType "NIGHT pm" = .graveyard
    ∧ normalizeShiftType "regular" = .day :=
  ⟨(normalizeShiftType_spec "NIGHT pm" "night PM").1 (by decide),
   (normalizeShiftType_spec "NIGHT pm" "night PM").2.1 (by decide) (by decide),
   (normalizeShiftType_spec "regular" "regular").2.2.1 (by decide)⟩

/-! ### Result-shape lemmas for the public-operation boundary -/

theorem paystubProcess_ok_shape (resp : String) (d : JValue) (r : PaystubResponse)
    (h : paystubProcess resp d = Except.ok r) :
    (r.success = true → r.data.isSome = true ∧ r.error = none) ∧
    (r.success = false → r.data = none ∧ r.error.isSome = true) := by
  unfold paystubProcess paystubFinish at h
  all_goals try split at h
  all_goals try (simp only [] at h)
  all_goals try split at h
  all_goals try (simp only [] at h)
  all_goals try split at h
  all_goals try (simp only [] at h)
  all_goals try split at h
  all_goals try (simp only [] at h)
  all_goals try split at h
  all_goals try (injection h with h2; subst h2)
  all_goals try (injection h)
  all_goals simp

theorem statProcess_ok_shape (d : JValue) (r : StatScheduleResponse)
    (h : statProcess d = Except.ok r) :
    (r.success = true →
      r.year.isSome = true ∧ r.holidays.isSome = true ∧ r.error = none) ∧
    (r.success = false →
      r.year = none ∧ r.holidays = none ∧ r.error.isSome = true) := by
  unfold statProcess at h
  all_goals try split at h
  all_goals try (simp only [] at h)
  all_goals try split at h
  all_goals try (simp only [] at h)
  all_goals try split at h
  all_goals try (simp only [] at h)
  all_goals try split at h
  all_goals try (simp only [] at h)
  all_goals try split at h
  all_goals try (simp only [] at h)
  all_goals try split at h
  all_goals try (simp only [] at h)
  all_goals try split at h
  all_goals try (injection h with h2; subst h2)
  all_goals try (injection h)
  all_goals simp

theorem statAttempt_ok_shape (env : AIEnv) (a : Except String String)
    (r : StatScheduleResponse) (h : statAttempt env a = Except.ok r) :
    (r.success = true →
      r.year.isSome = true ∧ r.holidays.isSome = true ∧ r.error = none) ∧
    (r.success = false →
      r.year = none ∧ r.holidays = none ∧ r.error.isSome = true) := by
  unfold statAttempt at h
  split at h
  · exact absurd h (by simp)
  · split at h
    · exact absurd h (by simp)
    · exact statProcess_ok_shape _ _ h

/-- C6.  Every public operation is a total function of its environment
(the embedding of "never throws past its own boundary": every thrown
error in any oracle outcome is caught), and its result is the tagged
union: success carries data (year and holidays for the stat-schedule
operation) and no error; failure carries an error and no data. -/
theorem publicOps_tagged_union (env : AIEnv) :
    (((parseTimesheetWithAI env).1.success = true →
        ((parseTimesheetWithAI env).1.data.isSome = true ∧
          (parseTimesheetWithAI env).1.error = none)) ∧
      ((parseTimesheetWithAI env).1.success = false →
        ((parseTimesheetWithAI env).1.data = none ∧
          (parseTimesheetWithAI env).1.error.isSome = true)))
    ∧ (((parsePaystubWithClaude env).success = true →
        ((parsePaystubWithClaude env).data.isSome = true ∧
          (parsePaystubWithClaude env).error = none)) ∧
      ((parsePaystubWithClaude env).success = false →
        ((parsePaystubWithClaude env).data = none ∧
          (parsePaystubWithClaude env).error.isSome = true)))
    ∧ (((parseStatScheduleWithAI env).1.success = true →
        ((parseStatScheduleWithAI env).1.year.isSome = true ∧
          (parseStatScheduleWithAI env).1.holidays.isSome = true ∧
          (parseStatScheduleWithAI env).1.error = none)) ∧
      ((parseStatScheduleWithAI env).1.success = false →
        ((parseStatScheduleWithAI env).1.year = none ∧
          (parseStatScheduleWithAI env).1.holidays = none ∧
          (parseStatScheduleWithAI env).1.error.isSome = true))) := by
  refine ⟨?_, ?_, ?_⟩
  · unfold parseTimesheetWithAI
    all_goals try split
    all_goals try split
    all_goals try split
    all_goals simp
  · unfold parsePaystubWithClaude
    split
    · next r hok =>
      split at hok
      · exact absurd hok (by simp)
      · split at hok
        · exact absurd hok (by simp)
        · exact paystubProcess_ok_shape _ _ _ hok
    · simp
  · unfold parseStatScheduleWithAI
    split
    · next r hok => exact statAttempt_ok_shape _ _ _ hok
    · next e herr =>
      split
      · simp
      · split
        · next r2 hok2 => exact statAttempt_ok_shape _ _ _ hok2
        · simp

/-- An environment whose oracles all fail, used by the C6 witness. -/
def failMsg : String := "network failure"

def failEnv : AIEnv :=
  { claude := Except.error failMsg
    gemini := Except.error failMsg
    geminiKey := ""
    jsonParse := fun _ => Except.error failMsg
    dateParse := fun _ => none }

/-- Witness for C6 at a concrete environment: the operations return
well-formed tagged results on an environment whose oracles all fail. -/
theorem publicOps_tagged_union_witness :
    (parseTimesheetWithAI failEnv).1.error.isSome = true
    ∧ (parsePaystubWithClaude failEnv).error.isSome = true
    ∧ (parseStatScheduleWithAI failEnv).1.error.isSome = true :=
  ⟨((publicOps_tagged_union failEnv).1.2 rfl).2,
   ((publicOps_tagged_union failEnv).2.1.2 rfl).2,
   ((publicOps_tagged_union failEnv).2.2.2 rfl).2.2⟩

/-! ### Fallback orchestration (C2, C3) -/

/-- A primary-adapter failure message used by concrete environments. -/
def primaryBoom : String := "Claude API request failed with status 500"

/-- A backup-adapter failure message used by concrete environments. -/
def backupBoom : String := "Gemini API request failed"

/-- A configured backup key used by concrete environments. -/
def gkStr : String := "gemini-key"

/-- The model text for an empty timesheet. -/
def emptyArr : String := "[]"

/-- Environment in which the primary adapter throws and no backup key
is configured. -/
def envNoBackup : AIEnv :=
  { claude := Except.error primaryBoom
    gemini := Except.error backupBoom
    geminiKey := ""
    jsonParse := fun _ => Except.error backupBoom
    dateParse := fun _ => none }

/-- Environment in which the primary adapter throws, a backup key is
configured, and the backup adapter also throws. -/
def envBothFail : AIEnv :=
  { claude := Except.error primaryBoom
    gemini := Except.error backupBoom
    geminiKey := gkStr
    jsonParse := fun _ => Except.error backupBoom
    dateParse := fun _ => none }

/-- Environment in which the primary adapter throws, a backup key is
configured, and the backup path succeeds with an empty entry list. -/
def envBackupOk : AIEnv :=
  { claude := Except.error primaryBoom
    gemini := Except.ok emptyArr
    geminiKey := gkStr
    jsonParse := fun s => if s = emptyArr then Except.ok (.arr []) else Except.error backupBoom
    dateParse := fun _ => none }

/-- C2 counterexample.  With the primary path throwing and no backup
key configured, the timesheet operation does fail immediately with no
backup call, but the failure message is the primary error's message,
not the no-backup-key message: the thrown no-backup-key error is
swallowed by the inner catch, which surfaces the primary error. -/
theorem fallback_noKey_message_counterexample :
    (parseTimesheetWithAI envNoBackup).2 = 0
    ∧ (parseTimesheetWithAI envNoBackup).1.success = false
    ∧ (parseTimesheetWithAI envNoBackup).1.error = some primaryBoom
    ∧ (parseStatScheduleWithAI envNoBackup).2 = 0
    ∧ (parseStatScheduleWithAI envNoBackup).1.error = some (.str primaryBoom)
    ∧ primaryBoom ≠ msgNoGeminiKey := by
  refine ⟨rfl, rfl, rfl, rfl, rfl, by decide⟩

/-- C2 (amended).  For every timesheet or stat-schedule call whose
primary path throws: with no backup key configured the operation
returns failure immediately, issuing no backup call, carrying the
primary error's message (not the no-backup-key message, which the
inner catch swallows); with a backup key configured exactly one backup
call is issued, and a successful backup outcome is returned. -/
theorem fallback_behavior (env : AIEnv) (eT eS : String)
    (hT : timesheetAttempt env env.claude = Except.error eT)
    (hS : statAttempt env env.claude = Except.error eS) :
    (env.geminiKey = "" →
      parseTimesheetWithAI env = (⟨false, none, some eT⟩, 0) ∧
      parseStatScheduleWithAI env = (⟨false, none, none, some (.str eS)⟩, 0))
    ∧ (env.geminiKey ≠ "" →
      ((parseTimesheetWithAI env).2 = 1 ∧ (parseStatScheduleWithAI env).2 = 1
      ∧ (∀ entries, timesheetAttempt env env.gemini = Except.ok entries →
          (parseTimesheetWithAI env).1 = ⟨true, some entries, none⟩)
      ∧ (∀ r, statAttempt env env.gemini = Except.ok r →
          (parseStatScheduleWithAI env).1 = r))) := by
  constructor
  · intro hkey
    constructor
    · simp [parseTimesheetWithAI, hT, hkey]
    · simp [parseStatScheduleWithAI, hS, hkey]
  · intro hkey
    refine ⟨?_, ?_, ?_, ?_⟩
    · simp only [parseTimesheetWithAI, hT]
      rw [if_neg hkey]
      split
      all_goals rfl
    · simp only [parseStatScheduleWithAI, hS]
      rw [if_neg hkey]
      split
      all_goals rfl
    · intro entries hok
      simp only [parseTimesheetWithAI, hT, hok]
      rw [if_neg hkey]
    · intro r hok
      simp only [parseStatScheduleWithAI, hS, hok]
      rw [if_neg hkey]

/-- Witness for C2 (amended) at the concrete environments
`envNoBackup` and `envBackupOk`. -/
theorem fallback_behavior_witness :
    (parseTimesheetWithAI envNoBackup).2 = 0
    ∧ (parseStatScheduleWithAI envNoBackup).2 = 0
    ∧ (parseTimesheetWithAI envBackupOk).2 = 1
    ∧ (parseTimesheetWithAI envBackupOk).1 = ⟨true, some [], none⟩ := by
  have h1 := (fallback_behavior envNoBackup primaryBoom primaryBoom rfl rfl).1 rfl
  have h2 := (fallback_behavior envBackupOk primaryBoom primaryBoom rfl rfl).2 (by decide)
  refine ⟨?_, ?_, h2.1, h2.2.2.1 [] rfl⟩
  · rw [h1.1]
  · rw [h1.2]

/-- C3.  Whenever the primary path throws and the backup path
subsequently also throws (including the thrown no-backup-key error
when no key is configured), the returned failure carries the primary
error's message, not the backup's. -/
theorem doubleFailure_primary_message (env : AIEnv) (eT eS eB eB2 : String)
    (hT : timesheetAttempt env env.claude = Except.error eT)
    (hS : statAttempt env env.claude = Except.error eS) :
    ((env.geminiKey = "" ∨ timesheetAttempt env env.gemini = Except.error eB) →
      ((parseTimesheetWithAI env).1.success = false ∧
        (parseTimesheetWithAI env).1.error = some eT))
    ∧ ((env.geminiKey = "" ∨ statAttempt env env.gemini = Except.error eB2) →
      ((parseStatScheduleWithAI env).1.success = false ∧
        (parseStatScheduleWithAI env).1.error = some (.str eS))) := by
  constructor
  · intro hb
    by_cases hkey : env.geminiKey = ""
    · simp [parseTimesheetWithAI, hT, hkey]
    · rcases hb with hb | hb
      · exact absurd hb hkey
      · simp only [parseTimesheetWithAI, hT, hb]
        rw [if_neg hkey]
        exact ⟨rfl, rfl⟩
  · intro hb
    by_cases hkey : env.geminiKey = ""
    · simp [parseStatScheduleWithAI, hS, hkey]
    · rcases hb with hb | hb
      · exact absurd hb hkey
      · simp only [parseStatScheduleWithAI, hS, hb]
        rw [if_neg hkey]
        exact ⟨rfl, rfl⟩

/-- Witness for C3 at the concrete environment `envBothFail`. -/
theorem doubleFailure_primary_message_witness :
    ((parseTimesheetWithAI envBothFail).1.error = some primaryBoom)
    ∧ ((parseStatScheduleWithAI envBothFail).1.error = some (.str primaryBoom)) := by
  have h := doubleFailure_primary_message envBothFail primaryBoom primaryBoom
    backupBoom backupBoom rfl rfl
  exact ⟨(h.1 (Or.inr rfl)).2, (h.2 (Or.inr rfl)).2⟩

/-! ### Traversal lemmas for the filter and map stages -/

theorem filterE_ok_eval {p : JValue → Except String Bool} :
    ∀ {xs : List JValue} {ys : List JValue}, filterE p xs = Except.ok ys →
      ∀ x ∈ xs, ∃ b, p x = Except.ok b := by
  intro xs
  induction xs with
  | nil => intro ys _ x hx; cases hx
  | cons a rest ih =>
    intro ys h x hx
    unfold filterE at h
    cases hpa : p a with
    | error m => rw [hpa] at h; exact absurd h (by simp)
    | ok b =>
      rw [hpa] at h
      cases hrest : filterE p rest with
      | error m => rw [hrest] at h; exact absurd h (by simp)
      | ok zs =>
        rcases List.mem_cons.mp hx with rfl | hx2
        · exact ⟨b, hpa⟩
        · exact ih hrest x hx2

theorem filterE_ok_eq {p : JValue → Except String Bool} {q : JValue → Bool} :
    ∀ {xs ys : List JValue}, filterE p xs = Except.ok ys →
      (∀ x ∈ xs, p x = Except.ok (q x)) → ys = xs.filter q := by
  intro xs
  induction xs with
  | nil =>
    intro ys h _
    unfold filterE at h
    simp only [List.filter_nil]
    exact (Except.ok.inj h).symm
  | cons a rest ih =>
    intro ys h hq
    unfold filterE at h
    rw [hq a (List.mem_cons_self a rest)] at h
    cases hrest : filterE p rest with
    | error m => rw [hrest] at h; exact absurd h (by simp)
    | ok zs =>
      rw [hrest] at h
      have hz : zs = rest.filter q :=
        ih hrest (fun x hx => hq x (List.mem_cons_of_mem a hx))
      rw [List.filter_cons]
      cases hqa : q a with
      | true =>
        simp only [hqa, if_true] at h ⊢
        rw [← (Except.ok.inj h), hz]
      | false =>
        simp only [hqa, if_false, Bool.false_eq_true] at h ⊢
        rw [← (Except.ok.inj h), hz]

theorem mapE_ok_mem {f : JValue → Except String NormEntry} :
    ∀ {xs : List JValue} {ys : List NormEntry}, mapE f xs = Except.ok ys →
      ys.length = xs.length ∧ ∀ y ∈ ys, ∃ x ∈ xs, f x = Except.ok y := by
  intro xs
  induction xs with
  | nil =>
    intro ys h
    unfold mapE at h
    rw [← (Except.ok.inj h)]
    exact ⟨rfl, by intro y hy; cases hy⟩
  | cons a rest ih =>
    intro ys h
    unfold mapE at h
    cases hfa : f a with
    | error m => rw [hfa] at h; exact absurd h (by simp)
    | ok b =>
      rw [hfa] at h
      cases hrest : mapE f rest with
      | error m => rw [hrest] at h; exact absurd h (by simp)
      | ok zs =>
        rw [hrest] at h
        rw [← (Except.ok.inj h)]
        obtain ⟨hlen, hmem⟩ := ih hrest
        refine ⟨by simp [hlen], ?_⟩
        intro y hy
        rcases List.mem_cons.mp hy with rfl | hy2
        · exact ⟨a, List.mem_cons_self a rest, hfa⟩
        · obtain ⟨x, hx, hfx⟩ := hmem y hy2
          exact ⟨x, List.mem_cons_of_mem a hx, hfx⟩

theorem entryValid_ok {e : JValue} {b : Bool} (h : entryValid e = Except.ok b) :
    b = entryValidPure e := by
  cases e <;>
    simp only [entryValid, entryValidPure, JValue.getField, getF] at h ⊢ <;>
    first
      | exact absurd h (by simp)
      | (split at h <;> simp_all [JValue.truthy])

theorem normalizeEntry_ok {dp : JValue → Option String} {e : JValue}
    {ent : NormEntry} (h : normalizeEntry dp e = Except.ok ent) :
    ent.date = normalizeDate dp (getF e kDate) ∧
    ent.hours = hoursCoerce (getF e kHours) ∧
    ent.earnings =
      (if (getF e kEarnings).truthy then some (jsNumber (getF e kEarnings)) else none) := by
  unfold normalizeEntry at h
  split at h
  · exact absurd h (by simp)
  · rw [← (Except.ok.inj h)]
    exact ⟨rfl, rfl, rfl⟩

theorem hoursCoerce_ne_zero (v : JValue) : hoursCoerce v ≠ 0 := by
  unfold hoursCoerce
  rcases hnum : jsNumber v with _ | q
  · norm_num
  · simp only []
    split
    · norm_num
    · assumption

theorem normalizeDate_truthy {dp : JValue → Option String} {v : JValue}
    (hdp : ∀ w s, dp w = some s → s ≠ "") (hv : v.truthy = true) :
    (normalizeDate dp v).truthy = true := by
  unfold normalizeDate
  cases hdv : dp v with
  | none => exact hv
  | some iso => simp [JValue.truthy, hdp v iso hdv]

theorem processEntries_ok {dp : JValue → Option String} {xs : List JValue}
    {result : List NormEntry} (hr : processEntries dp xs = Except.ok result) :
    result.length = (xs.filter entryValidPure).length ∧
    ∀ ent ∈ result, ∃ src ∈ xs, entryValidPure src = true ∧
      normalizeEntry dp src = Except.ok ent := by
  unfold processEntries at hr
  cases hf : filterE entryValid xs with
  | error m => rw [hf] at hr; exact absurd hr (by simp)
  | ok valid =>
    rw [hf] at hr
    have hq : ∀ x ∈ xs, entryValid x = Except.ok (entryValidPure x) := by
      intro x hx
      obtain ⟨b, hb⟩ := filterE_ok_eval hf x hx
      rw [hb, entryValid_ok hb]
    have hvalid : valid = xs.filter entryValidPure := filterE_ok_eq hf hq
    obtain ⟨hlen, hmem⟩ := mapE_ok_mem hr
    subst hvalid
    refine ⟨hlen, ?_⟩
    intro ent hent
    obtain ⟨src, hsrc, hok⟩ := hmem ent hent
    rw [List.mem_filter] at hsrc
    exact ⟨src, hsrc.1, hsrc.2, hok⟩

/-! ### Timesheet entry invariants (C1, C10) -/

/-- The model text for a timesheet whose single entry has hours -5. -/
def rawNegHours : String := "[\x7b\"date\":\"2024-01-15\",\"hours\":-5\x7d]"

/-- An ISO day string used by concrete environments. -/
def dateIso : String := "2024-01-15"

/-- The parsed entry with negative hours. -/
def entryNegHours : JValue := .obj [(kDate, .str dateIso), (kHours, .num (-5))]

/-- Environment in which the primary adapter returns a timesheet whose
single entry carries hours -5. -/
def envNegHours : AIEnv :=
  { claude := Except.ok rawNegHours
    gemini := Except.error backupBoom
    geminiKey := ""
    jsonParse :=
      fun s => if s = rawNegHours then Except.ok (.arr [entryNegHours]) else Except.error backupBoom
    dateParse := fun _ => none }

/-- C1 counterexample.  An entry whose `hours` field is the (truthy)
number -5 survives the filter, and `Number(-5) || 8` keeps -5: the
returned sequence contains an entry whose hours value is negative, not
positive. -/
theorem timesheet_positive_hours_counterexample :
    (parseTimesheetWithAI envNegHours).1.success = true
    ∧ ((parseTimesheetWithAI envNegHours).1.data.map (List.map NormEntry.hours)) =
        some [-5]
    ∧ ¬(0 < (-5 : ℚ)) := by
  refine ⟨rfl, by decide, by norm_num⟩

/-- C1 (amended).  For every successfully parsed JSON array of entries
whose processing completes, `parseTimesheetWithAI` excludes every entry
with a falsy `date` or `hours` (the returned length is the count of
entries passing the filter), and every returned entry has a truthy
(non-empty) date and a nonzero hours value, where hours is the numeric
coercion of the surviving source entry's value defaulting to 8 when
that value is non-numeric (a negative source hours passes through as a
negative value); failing entries are dropped, never repaired. -/
theorem parseTimesheet_valid_entries (env : AIEnv) (resp : String)
    (xs : List JValue) (result : List NormEntry)
    (hdp : ∀ w s, env.dateParse w = some s → s ≠ "")
    (hc : env.claude = Except.ok resp)
    (hp : env.jsonParse (extractJSON resp) = Except.ok (.arr xs))
    (hr : processEntries env.dateParse xs = Except.ok result) :
    parseTimesheetWithAI env = (⟨true, some result, none⟩, 0)
    ∧ result.length = (xs.filter entryValidPure).length
    ∧ ∀ ent ∈ result, ent.date.truthy = true ∧ ent.hours ≠ 0 ∧
        ∃ src ∈ xs, entryValidPure src = true ∧
          ent.hours = hoursCoerce (getF src kHours) ∧
          (jsNumber (getF src kHours) = none → ent.hours = 8) := by
  have hattempt : timesheetAttempt env env.claude = Except.ok result := by
    unfold timesheetAttempt
    simp only [hc, hp, hr]
  obtain ⟨hlen, hmem⟩ := processEntries_ok hr
  refine ⟨?_, hlen, ?_⟩
  · unfold parseTimesheetWithAI
    rw [hattempt]
  · intro ent hent
    obtain ⟨src, hsrc, hvalid, hok⟩ := hmem ent hent
    obtain ⟨hdate, hhours, _⟩ := normalizeEntry_ok hok
    have hdtruthy : (getF src kDate).truthy = true := by
      have hv2 := hvalid
      simp only [entryValidPure, Bool.and_eq_true] at hv2
      exact hv2.1
    refine ⟨?_, ?_, src, hsrc, hvalid, hhours, ?_⟩
    · rw [hdate]
      exact normalizeDate_truthy hdp hdtruthy
    · rw [hhours]
      exact hoursCoerce_ne_zero _
    · intro hnone
      rw [hhours]
      unfold hoursCoerce
      rw [hnone]

/-- The model text of the witness timesheet for C1/C10. -/
def rawTsOk : String :=
  "[\x7b\"date\":\"2024-01-15\",\"shift_type\":\"Night Shift\",\"hours\":\"8\",\"job_name\":\"\"\x7d]"

/-- The shift-type string of the witness entry. -/
def strNightShift : String := "Night Shift"

/-- The hours string of the witness entry. -/
def strEight : String := "8"

/-- The parsed witness entry. -/
def entryTsOk : JValue :=
  .obj [(kDate, .str dateIso), (kShiftType, .str strNightShift),
    (kHours, .str strEight), (kJobName, .str "")]

/-- Environment in which the primary adapter returns the witness
timesheet; `new Date` succeeds exactly on the ISO day it contains. -/
def envTsOk : AIEnv :=
  { claude := Except.ok rawTsOk
    gemini := Except.error backupBoom
    geminiKey := ""
    jsonParse :=
      fun s => if s = rawTsOk then Except.ok (.arr [entryTsOk]) else Except.error backupBoom
    dateParse :=
      fun v =>
        match v with
        | .str s => if s = dateIso then some dateIso else none
        | _ => none }

/-- The normalized entry produced from the witness timesheet. -/
def entryTsOkResult : NormEntry :=
  { rest := [(kDate, .str dateIso), (kShiftType, .str strNightShift),
      (kHours, .str strEight), (kJobName, .str "")]
    date := .str dateIso
    shift_type := .graveyard
    hours := 8
    job_name := .str strImported
    earnings := none }

theorem envTsOk_dateParse_nonempty :
    ∀ w s, envTsOk.dateParse w = some s → s ≠ "" := by
  intro w s h
  match w with
  | .str t =>
    simp only [envTsOk] at h
    by_cases ht : t = dateIso
    · rw [if_pos ht] at h
      rw [← (Option.some.inj h)]
      decide
    · rw [if_neg ht] at h
      exact absurd h (by simp)
  | .null | .undefined | .bool _ | .num _ | .arr _ | .obj _ =>
    simp only [envTsOk] at h
    exact absurd h (by simp)

/-- Witness for C1 (amended) at the concrete environment `envTsOk`
(the spec's own worked scenario: fenced-free response with
`shift_type` "Night Shift", string hours "8", empty job name). -/
theorem parseTimesheet_valid_entries_witness :
    parseTimesheetWithAI envTsOk = (⟨true, some [entryTsOkResult], none⟩, 0)
    ∧ entryTsOkResult.hours ≠ 0 := by
  have h := parseTimesheet_valid_entries envTsOk rawTsOk [entryTsOk] [entryTsOkResult]
    envTsOk_dateParse_nonempty rfl rfl rfl
  refine ⟨h.1, ?_⟩
  have hm := h.2.2 entryTsOkResult (by simp)
  exact hm.2.1

/-- The model text for a timesheet whose single entry has the string
earnings value "0". -/
def rawZeroEarn : String :=
  "[\x7b\"date\":\"2024-01-15\",\"hours\":8,\"earnings\":\"0\"\x7d]"

/-- The earnings string of the C10 counterexample entry. -/
def strZero : String := "0"

/-- The parsed entry with string earnings "0". -/
def entryZeroEarn : JValue :=
  .obj [(kDate, .str dateIso), (kHours, .num 8), (kEarnings, .str strZero)]

/-- Environment in which the primary adapter returns a timesheet whose
single entry carries the truthy string earnings "0". -/
def envZeroEarn : AIEnv :=
  { claude := Except.ok rawZeroEarn
    gemini := Except.error backupBoom
    geminiKey := ""
    jsonParse :=
      fun s => if s = rawZeroEarn then Except.ok (.arr [entryZeroEarn]) else Except.error backupBoom
    dateParse := fun _ => none }

/-- C10 counterexample.  The source earnings value `"0"` is a
non-empty string, hence truthy, so it is forwarded as
`Number("0") = 0`: the returned entry carries an earnings of 0. -/
theorem timesheet_zero_earnings_counterexample :
    (parseTimesheetWithAI envZeroEarn).1.success = true
    ∧ ((parseTimesheetWithAI envZeroEarn).1.data.map (List.map NormEntry.earnings)) =
        some [some (some 0)] := by
  refine ⟨rfl, by decide⟩

/-- C10 (amended).  For every surviving timesheet entry, `earnings` is
forwarded as the numeric coercion of the source value exactly when the
source value is truthy, and replaced by `undefined` when the source
value is falsy (0, empty string, null, or missing); a returned entry
carries an earnings of 0 only when the source value is a truthy value,
such as the string "0", whose numeric coercion is 0. -/
theorem parseTimesheet_earnings (env : AIEnv) (resp : String)
    (xs : List JValue) (result : List NormEntry)
    (hc : env.claude = Except.ok resp)
    (hp : env.jsonParse (extractJSON resp) = Except.ok (.arr xs))
    (hr : processEntries env.dateParse xs = Except.ok result) :
    parseTimesheetWithAI env = (⟨true, some result, none⟩, 0)
    ∧ ∀ ent ∈ result, ∃ src ∈ xs,
        ent.earnings = (if (getF src kEarnings).truthy then
          some (jsNumber (getF src kEarnings)) else none)
        ∧ ((getF src kEarnings).truthy = false → ent.earnings = none)
        ∧ (ent.earnings = some (some 0) →
            ((getF src kEarnings).truthy = true ∧
              jsNumber (getF src kEarnings) = some 0)) := by
  have hattempt : timesheetAttempt env env.claude = Except.ok result := by
    unfold timesheetAttempt
    simp only [hc, hp, hr]
  obtain ⟨_, hmem⟩ := processEntries_ok hr
  constructor
  · unfold parseTimesheetWithAI
    rw [hattempt]
  · intro ent hent
    obtain ⟨src, hsrc, _, hok⟩ := hmem ent hent
    obtain ⟨_, _, hearn⟩ := normalizeEntry_ok hok
    refine ⟨src, hsrc, hearn, ?_, ?_⟩
    · intro hfalsy
      rw [hearn, hfalsy]
      simp
    · intro hzero
      rw [hearn] at hzero
      by_cases htr : (getF src kEarnings).truthy = true
      · rw [htr] at hzero
        simp only [if_true] at hzero
        exact ⟨htr, Option.some.inj hzero⟩
      · rw [Bool.not_eq_true] at htr
        rw [htr] at hzero
        simp at hzero

/-- Witness for C10 (amended) at the concrete environment `envTsOk`
(whose entry has no earnings field, a falsy source value). -/
theorem parseTimesheet_earnings_witness :
    parseTimesheetWithAI envTsOk = (⟨true, some [entryTsOkResult], none⟩, 0)
    ∧ entryTsOkResult.earnings = none := by
  have h := parseTimesheet_earnings envTsOk rawTsOk [entryTsOk] [entryTsOkResult]
    rfl rfl rfl
  exact ⟨h.1, rfl⟩

/-! ### Property-write lemmas and the paystub success criterion (C4) -/

theorem lookupField_map_overwrite_ne (k k' : String) (v : JValue) (h : k' ≠ k) :
    ∀ fs : List (String × JValue),
      lookupField (fs.map (fun p => if p.1 = k then (k, v) else p)) k' =
        lookupField fs k' := by
  intro fs
  induction fs with
  | nil => rfl
  | cons a rest ih =>
    obtain ⟨a1, a2⟩ := a
    simp only [List.map_cons]
    by_cases hak : a1 = k
    · subst hak
      rw [if_pos rfl]
      simp only [lookupField]
      rw [if_neg (fun hkk => h hkk.symm), if_neg (fun hkk => h hkk.symm)]
      exact ih
    · rw [if_neg hak]
      simp only [lookupField]
      by_cases ha1 : a1 = k'
      · rw [if_pos ha1, if_pos ha1]
      · rw [if_neg ha1, if_neg ha1]
        exact ih

theorem lookupField_append_single_ne (k k' : String) (v : JValue) (h : k' ≠ k) :
    ∀ fs : List (String × JValue),
      lookupField (fs ++ [(k, v)]) k' = lookupField fs k' := by
  intro fs
  induction fs with
  | nil =>
    simp only [List.nil_append, lookupField]
    rw [if_neg (fun hkk => h hkk.symm)]
  | cons a rest ih =>
    obtain ⟨a1, a2⟩ := a
    simp only [List.cons_append, lookupField]
    by_cases ha1 : a1 = k'
    · rw [if_pos ha1, if_pos ha1]
    · rw [if_neg ha1, if_neg ha1]
      exact ih

theorem lookupField_setField_ne (fs : List (String × JValue)) (k k' : String)
    (v : JValue) (h : k' ≠ k) :
    lookupField (setField fs k v) k' = lookupField fs k' := by
  unfold setField
  split
  · exact lookupField_map_overwrite_ne k k' v h fs
  · exact lookupField_append_single_ne k k' v h fs

theorem lookupField_map_overwrite_self (k : String) (v : JValue) :
    ∀ fs : List (String × JValue), (fs.any (fun p => decide (p.1 = k))) = true →
      lookupField (fs.map (fun p => if p.1 = k then (k, v) else p)) k = v := by
  intro fs
  induction fs with
  | nil => intro hany; cases hany
  | cons a rest ih =>
    intro hany
    obtain ⟨a1, a2⟩ := a
    simp only [List.map_cons]
    by_cases hak : a1 = k
    · rw [if_pos hak]
      simp only [lookupField]
      exact if_pos trivial
    · rw [if_neg hak]
      simp only [lookupField]
      rw [if_neg hak]
      refine ih ?_
      simp only [List.any_cons] at hany
      rcases Bool.or_eq_true_iff.mp hany with hh | ht
      · exact absurd (of_decide_eq_true hh) hak
      · exact ht

theorem lookupField_append_single_self (k : String) (v : JValue) :
    ∀ fs : List (String × JValue), (fs.any (fun p => decide (p.1 = k))) = false →
      lookupField (fs ++ [(k, v)]) k = v := by
  intro fs
  induction fs with
  | nil => intro _; simp [lookupField]
  | cons a rest ih =>
    intro hany
    obtain ⟨a1, a2⟩ := a
    simp only [List.any_cons, Bool.or_eq_false_iff] at hany
    simp only [List.cons_append, lookupField]
    have ha1 : ¬(a1 = k) := by simpa using hany.1
    rw [if_neg ha1]
    exact ih hany.2

theorem lookupField_setField_self (fs : List (String × JValue)) (k : String)
    (v : JValue) : lookupField (setField fs k v) k = v := by
  unfold setField
  split
  · next hany => exact lookupField_map_overwrite_self k v fs hany
  · next hany =>
    exact lookupField_append_single_self k v fs ((Bool.not_eq_true _) ▸ hany)

/-- Length of an array value; 0 for anything else (the shape the
success criterion reads after the `line_items` coercion). -/
def liLenOf : JValue → Nat
  | .arr xs => xs.length
  | _ => 0

theorem paystubLegacyHours_obj (fs : List (String × JValue)) :
    ∃ fs1, paystubLegacyHours (.obj fs) = Except.ok (.obj fs1)
      ∧ lookupField fs1 kGrossPay = lookupField fs kGrossPay
      ∧ lookupField fs1 kNetPay = lookupField fs kNetPay
      ∧ lookupField fs1 kLineItems = lookupField fs kLineItems := by
  unfold paystubLegacyHours
  simp only [JValue.getField]
  by_cases hth : (lookupField fs kTotalHours).truthy = true
  · by_cases hhw : (lookupField fs kHoursWorked).truthy = true
    · exact ⟨fs, by rw [if_pos hth, if_pos hhw], rfl, rfl, rfl⟩
    · refine ⟨setField fs kHoursWorked (lookupField fs kTotalHours), ?_, ?_, ?_, ?_⟩
      · rw [if_pos hth, if_neg hhw]
        rfl
      · exact lookupField_setField_ne fs kHoursWorked kGrossPay _ (by decide)
      · exact lookupField_setField_ne fs kHoursWorked kNetPay _ (by decide)
      · exact lookupField_setField_ne fs kHoursWorked kLineItems _ (by decide)
  · exact ⟨fs, by rw [if_neg hth], rfl, rfl, rfl⟩

theorem paystubCoerceLineItems_obj (fs1 : List (String × JValue)) :
    ∃ fs2, paystubCoerceLineItems (.obj fs1) = Except.ok (.obj fs2)
      ∧ lookupField fs2 kGrossPay = lookupField fs1 kGrossPay
      ∧ lookupField fs2 kNetPay = lookupField fs1 kNetPay
      ∧ liLenOf (lookupField fs2 kLineItems) = liLenOf (lookupField fs1 kLineItems) := by
  unfold paystubCoerceLineItems
  simp only [JValue.getField]
  cases hli : lookupField fs1 kLineItems with
  | arr xs => exact ⟨fs1, rfl, rfl, rfl, by rw [hli]⟩
  | null | undefined | bool b | num q | str s | obj o =>
    refine ⟨setField fs1 kLineItems (.arr []), rfl, ?_, ?_, ?_⟩
    · exact lookupField_setField_ne fs1 kLineItems kGrossPay _ (by decide)
    · exact lookupField_setField_ne fs1 kLineItems kNetPay _ (by decide)
    · rw [lookupField_setField_self]
      rfl

theorem paystubFinish_obj (response : String) (fs2 : List (String × JValue)) :
    paystubFinish response (.obj fs2) =
      (if ((lookupField fs2 kGrossPay).truthy || (lookupField fs2 kNetPay).truthy ||
          decide (0 < liLenOf (lookupField fs2 kLineItems))) then
        Except.ok ⟨true, some (.obj fs2), none⟩
      else
        Except.ok ⟨false, none, some (msgNoPayData ++ jsSubstring response 0 200)⟩) := by
  unfold paystubFinish liLenOf
  rfl

theorem paystubProcess_obj (response : String) (fs : List (String × JValue)) :
    ∃ r, paystubProcess response (.obj fs) = Except.ok r
      ∧ r.success = ((lookupField fs kGrossPay).truthy || (lookupField fs kNetPay).truthy ||
          decide (0 < liLenOf (lookupField fs kLineItems)))
      ∧ (r.success = false →
          (r.error = some (msgNoPayData ++ jsSubstring response 0 200) ∧ r.data = none))
      ∧ (r.success = true → r.error = none) := by
  obtain ⟨fs1, h1, g1, n1, l1⟩ := paystubLegacyHours_obj fs
  obtain ⟨fs2, h2, g2, n2, l2⟩ := paystubCoerceLineItems_obj fs1
  have hcond : ((lookupField fs2 kGrossPay).truthy || (lookupField fs2 kNetPay).truthy ||
      decide (0 < liLenOf (lookupField fs2 kLineItems))) =
      ((lookupField fs kGrossPay).truthy || (lookupField fs kNetPay).truthy ||
      decide (0 < liLenOf (lookupField fs kLineItems))) := by
    rw [g2, g1, n2, n1, l2, l1]
  unfold paystubProcess
  simp only [h1, h2, paystubFinish_obj, hcond]
  by_cases hc : ((lookupField fs kGrossPay).truthy || (lookupField fs kNetPay).truthy ||
      decide (0 < liLenOf (lookupField fs kLineItems))) = true
  · rw [if_pos hc]
    exact ⟨_, rfl, by simpa using hc.symm, by simp, by simp⟩
  · rw [if_neg hc]
    refine ⟨_, rfl, ?_, by simp, by simp⟩
    simp only []
    rw [Bool.not_eq_true] at hc
    exact hc.symm

theorem liLenOf_pos_iff (v : JValue) :
    0 < liLenOf v ↔ ∃ xs, v = JValue.arr xs ∧ xs ≠ [] := by
  cases v <;> simp [liLenOf]
  next xs => exact List.length_pos

/-- C4.  Given a model response whose brace-extracted candidate parses
to a JSON object, `parsePaystubWithClaude` returns success exactly when
at least one of `gross_pay` or `net_pay` is present (truthy) or
`line_items` is a non-empty array after normalization; otherwise it
returns failure whose message embeds the 200-character prefix of the
raw model response. -/
theorem parsePaystub_success_iff (env : AIEnv) (resp : String)
    (fs : List (String × JValue))
    (hc : env.claude = Except.ok resp)
    (hp : env.jsonParse (braceCandidate resp) = Except.ok (.obj fs)) :
    ((parsePaystubWithClaude env).success = true ↔
      ((lookupField fs kGrossPay).truthy = true ∨
        (lookupField fs kNetPay).truthy = true ∨
        (∃ xs, lookupField fs kLineItems = JValue.arr xs ∧ xs ≠ [])))
    ∧ ((parsePaystubWithClaude env).success = false →
      (parsePaystubWithClaude env).error =
        some (msgNoPayData ++ jsSubstring resp 0 200)) := by
  obtain ⟨r, hr, hsucc, hfail, _⟩ := paystubProcess_obj resp fs
  have hres : parsePaystubWithClaude env = r := by
    unfold parsePaystubWithClaude
    simp only [hc, hp, hr]
  rw [hres]
  constructor
  · rw [hsucc]
    simp only [Bool.or_eq_true, decide_eq_true_eq]
    rw [liLenOf_pos_iff]
    tauto
  · intro hf
    exact (hfail hf).1

/-- The model text of the witness paystub. -/
def rawPay : String := "\x7b\"gross_pay\":1000\x7d"

/-- Environment in which the primary adapter returns the witness
paystub. -/
def envPayOk : AIEnv :=
  { claude := Except.ok rawPay
    gemini := Except.error backupBoom
    geminiKey := ""
    jsonParse :=
      fun s => if s = rawPay then Except.ok (.obj [(kGrossPay, .num 1000)])
        else Except.error backupBoom
    dateParse := fun _ => none }

/-- Witness for C4 at the concrete environment `envPayOk` (gross pay
1000, no net pay, no line items). -/
theorem parsePaystub_success_iff_witness :
    (parsePaystubWithClaude envPayOk).success = true := by
  have h := parsePaystub_success_iff envPayOk rawPay [(kGrossPay, JValue.num 1000)] rfl rfl
  exact h.1.mpr (Or.inl (by decide))

/-! ### Stat-schedule post-parse behavior (C5) -/

theorem filterE_eq_filter_of {p : JValue → Except String Bool} {q : JValue → Bool}
    {xs : List JValue} (hq : ∀ x ∈ xs, p x = Except.ok (q x)) :
    filterE p xs = Except.ok (xs.filter q) := by
  induction xs with
  | nil => rfl
  | cons a rest ih =>
    unfold filterE
    rw [hq a (List.mem_cons_self a rest),
      ih (fun x hx => hq x (List.mem_cons_of_mem a hx)), List.filter_cons]

theorem truthyNull : JValue.truthy .null = false := rfl

theorem truthyUndef : JValue.truthy .undefined = false := rfl

theorem truthyBool (b : Bool) : JValue.truthy (.bool b) = b := rfl

theorem truthyArr (l : List JValue) : JValue.truthy (.arr l) = true := rfl

theorem truthyObj (o : List (String × JValue)) : JValue.truthy (.obj o) = true := rfl

theorem statHolidayValid_ok (h : JValue)
    (hn : h ≠ JValue.null) (hu : h ≠ JValue.undefined) :
    statHolidayValid h = Except.ok (statHolidayValidPure h) := by
  cases h with
  | null => exact absurd rfl hn
  | undefined => exact absurd rfl hu
  | bool b => rfl
  | num q => rfl
  | str s => rfl
  | arr l => rfl
  | obj fs =>
    cases hb1 : (lookupField fs kName).truthy <;>
      cases hb2 : (lookupField fs kDate).truthy <;>
        cases hb3 : (lookupField fs kQualStart).truthy <;>
          cases hb4 : (lookupField fs kQualEnd).truthy <;>
            simp [statHolidayValid, statHolidayValidPure, JValue.getField, getF,
              hb1, hb2, hb3, hb4]

theorem statProcess_sentinel (fs : List (String × JValue))
    (herr : (lookupField fs kError).truthy = true) :
    statProcess (.obj fs) =
      Except.ok ⟨false, none, none, some (lookupField fs kError)⟩ := by
  simp [statProcess, JValue.getField, herr]

theorem statProcess_invalid (fs : List (String × JValue))
    (herr : (lookupField fs kError).truthy = false)
    (hbad : (lookupField fs kYear).truthy = false ∨
      (∀ l, lookupField fs kHolidays ≠ JValue.arr l)) :
    statProcess (.obj fs) =
      Except.ok ⟨false, none, none, some (.str msgInvalidDataFormat)⟩ := by
  rcases hbad with hy | hnotarr
  · simp [statProcess, JValue.getField, herr, hy]
  · cases hhs : lookupField fs kHolidays with
    | arr l => exact absurd hhs (hnotarr l)
    | null =>
      simp [statProcess, JValue.getField, herr, hhs, truthyNull]
    | undefined =>
      simp [statProcess, JValue.getField, herr, hhs, truthyUndef]
    | bool b =>
      simp [statProcess, JValue.getField, herr, hhs, truthyBool]
    | num q =>
      simp [statProcess, JValue.getField, herr, hhs]
    | str s =>
      simp [statProcess, JValue.getField, herr, hhs]
    | obj o =>
      simp [statProcess, JValue.getField, herr, hhs, truthyObj]

theorem statProcess_holidays (fs : List (String × JValue)) (hlist : List JValue)
    (herr : (lookupField fs kError).truthy = false)
    (hy : (lookupField fs kYear).truthy = true)
    (hhs : lookupField fs kHolidays = JValue.arr hlist)
    (hnn : ∀ h ∈ hlist, h ≠ JValue.null ∧ h ≠ JValue.undefined) :
    (hlist.filter statHolidayValidPure = [] →
      statProcess (.obj fs) =
        Except.ok ⟨false, none, none, some (.str msgNoValidHolidays)⟩)
    ∧ (hlist.filter statHolidayValidPure ≠ [] →
      statProcess (.obj fs) =
        Except.ok ⟨true, some (lookupField fs kYear),
          some (hlist.filter statHolidayValidPure), none⟩) := by
  have hfe : filterE statHolidayValid hlist =
      Except.ok (hlist.filter statHolidayValidPure) :=
    filterE_eq_filter_of
      (fun x hx => statHolidayValid_ok x (hnn x hx).1 (hnn x hx).2)
  constructor
  · intro hempty
    simp [statProcess, JValue.getField, herr, hy, hhs, truthyArr, hfe, hempty]
  · intro hne
    simp [statProcess, JValue.getField, herr, hy, hhs, truthyArr, hfe,
      List.length_eq_zero, hne]

theorem parseStat_of_process (env : AIEnv) (resp : String)
    (fs : List (String × JValue)) (R : StatScheduleResponse)
    (hc : env.claude = Except.ok resp)
    (hp : env.jsonParse (braceCandidate resp) = Except.ok (.obj fs))
    (hproc : statProcess (.obj fs) = Except.ok R) :
    parseStatScheduleWithAI env = (R, 0) := by
  have hat : statAttempt env env.claude = Except.ok R := by
    unfold statAttempt
    simp only [hc, hp, hproc]
  unfold parseStatScheduleWithAI
  rw [hat]

/-- C5 (amended).  For every successfully parsed stat-schedule JSON
object: failure carrying the sentinel `error` value when a truthy
`error` field is present; failure "Invalid data format" when `year` is
missing (falsy) or `holidays` is not an array; and, when every element
of the `holidays` array is itself a non-null, non-undefined value (so
the required-fields reads cannot throw), failure "No valid holidays
found" when no holiday passes the four-required-fields filter and
otherwise success carrying exactly the holidays that have all four
required fields.  A null or undefined holiday element instead makes
the filter's property read throw, sending the operation to the backup
fallback (see the counterexample). -/
theorem parseStatSchedule_spec (env : AIEnv) (resp : String)
    (fs : List (String × JValue))
    (hc : env.claude = Except.ok resp)
    (hp : env.jsonParse (braceCandidate resp) = Except.ok (.obj fs)) :
    ((lookupField fs kError).truthy = true →
      parseStatScheduleWithAI env =
        (⟨false, none, none, some (lookupField fs kError)⟩, 0))
    ∧ ((lookupField fs kError).truthy = false →
      ((lookupField fs kYear).truthy = false ∨
        (∀ l, lookupField fs kHolidays ≠ JValue.arr l)) →
      parseStatScheduleWithAI env =
        (⟨false, none, none, some (.str msgInvalidDataFormat)⟩, 0))
    ∧ (∀ hlist, (lookupField fs kError).truthy = false →
      (lookupField fs kYear).truthy = true →
      lookupField fs kHolidays = JValue.arr hlist →
      (∀ h ∈ hlist, h ≠ JValue.null ∧ h ≠ JValue.undefined) →
      ((hlist.filter statHolidayValidPure = [] →
        parseStatScheduleWithAI env =
          (⟨false, none, none, some (.str msgNoValidHolidays)⟩, 0))
      ∧ (hlist.filter statHolidayValidPure ≠ [] →
        parseStatScheduleWithAI env =
          (⟨true, some (lookupField fs kYear),
            some (hlist.filter statHolidayValidPure), none⟩, 0)))) := by
  refine ⟨?_, ?_, ?_⟩
  · intro herr
    exact parseStat_of_process env resp fs _ hc hp (statProcess_sentinel fs herr)
  · intro herr hbad
    exact parseStat_of_process env resp fs _ hc hp (statProcess_invalid fs herr hbad)
  · intro hlist herr hy hhs hnn
    obtain ⟨hemp, hne⟩ := statProcess_holidays fs hlist herr hy hhs hnn
    exact ⟨fun he => parseStat_of_process env resp fs _ hc hp (hemp he),
      fun hn => parseStat_of_process env resp fs _ hc hp (hne hn)⟩

/-- The model text of the null-holiday scenario. -/
def rawStatNull : String := "\x7b\"year\":2026,\"holidays\":[null]\x7d"

/-- Environment in which the primary adapter returns a schedule whose
holidays array contains `null`, a backup key is configured, and the
backup adapter throws. -/
def envStatNull : AIEnv :=
  { claude := Except.ok rawStatNull
    gemini := Except.error backupBoom
    geminiKey := gkStr
    jsonParse :=
      fun s => if s = rawStatNull then
        Except.ok (.obj [(kYear, .num 2026), (kHolidays, .arr [JValue.null])])
      else Except.error backupBoom
    dateParse := fun _ => none }

/-- C5 counterexample.  On the successfully parsed object
`\x7b"year":2026,"holidays":[null]\x7d` no holiday has the four required
fields, yet the operation does not return "No valid holidays found":
the filter's property read on the null element throws, the outer catch
falls back to the backup adapter (one backup call is issued), and the
surfaced failure carries the primary TypeError message. -/
theorem statSchedule_null_holiday_counterexample :
    ([JValue.null].filter statHolidayValidPure = [])
    ∧ (parseStatScheduleWithAI envStatNull).2 = 1
    ∧ (parseStatScheduleWithAI envStatNull).1.error =
        some (.str (msgReadOfNull ++ kName))
    ∧ (msgReadOfNull ++ kName) ≠ msgNoValidHolidays := by
  refine ⟨rfl, rfl, rfl, by decide⟩

/-- The sentinel error string of the stat-schedule prompt. -/
def sentinelNotStat : String := "not_stat_schedule"

/-- The model text of the sentinel scenario. -/
def rawStatErr : String := "\x7b\"error\":\"not_stat_schedule\"\x7d"

/-- Environment in which the primary adapter reports a non-schedule
image via the sentinel object. -/
def envStatErr : AIEnv :=
  { claude := Except.ok rawStatErr
    gemini := Except.error backupBoom
    geminiKey := ""
    jsonParse :=
      fun s => if s = rawStatErr then Except.ok (.obj [(kError, .str sentinelNotStat)])
        else Except.error backupBoom
    dateParse := fun _ => none }

def strCanadaDay : String := "Canada Day"
def dJul1 : String := "2026-07-01"
def dMay4 : String := "2026-05-04"
def dJun2 : String := "2026-06-02"

/-- The witness holiday (the spec's Canada Day scenario). -/
def holidayCanada : JValue :=
  .obj [(kName, .str strCanadaDay), (kDate, .str dJul1),
    (kQualStart, .str dMay4), (kQualEnd, .str dJun2)]

/-- The parsed witness schedule object. -/
def fsStatOk : List (String × JValue) :=
  [(kYear, .num 2026), (kHolidays, .arr [holidayCanada])]

/-- The model text of the witness schedule. -/
def rawStatOk : String :=
  "\x7b\"year\":2026,\"holidays\":[\x7b\"name\":\"Canada Day\",\"date\":\"2026-07-01\",\"qualification_start\":\"2026-05-04\",\"qualification_end\":\"2026-06-02\"\x7d]\x7d"

/-- Environment in which the primary adapter returns the witness
schedule. -/
def envStatOk : AIEnv :=
  { claude := Except.ok rawStatOk
    gemini := Except.error backupBoom
    geminiKey := ""
    jsonParse :=
      fun s => if s = rawStatOk then Except.ok (.obj fsStatOk) else Except.error backupBoom
    dateParse := fun _ => none }

set_option maxRecDepth 8192 in
/-- Witness for C5 at the concrete environments `envStatErr` (sentinel
scenario) and `envStatOk` (single valid holiday scenario). -/
theorem parseStatSchedule_spec_witness :
    parseStatScheduleWithAI envStatErr =
      (⟨false, none, none, some (.str sentinelNotStat)⟩, 0)
    ∧ parseStatScheduleWithAI envStatOk =
      (⟨true, some (.num 2026), some [holidayCanada], none⟩, 0) := by
  constructor
  · have h := (parseStatSchedule_spec envStatErr rawStatErr
      [(kError, .str sentinelNotStat)] rfl rfl).1 (by decide)
    rw [h]
    rfl
  · have hnn : ∀ h ∈ [holidayCanada], h ≠ JValue.null ∧ h ≠ JValue.undefined := by
      intro h hh
      rw [List.mem_singleton] at hh
      subst hh
      exact ⟨by simp [holidayCanada], by simp [holidayCanada]⟩
    have hfil : [holidayCanada].filter statHolidayValidPure = [holidayCanada] := rfl
    have h2 := ((parseStatSchedule_spec envStatOk rawStatOk fsStatOk rfl rfl).2.2
      [holidayCanada] rfl (by decide) rfl hnn).2 (by rw [hfil]; exact List.cons_ne_nil _ _)
    rw [h2, hfil]
    rfl

end DockLog
